import Mathlib

/-
Verification of the benchling-api client library.

The Python sources (benchlingapi/benchlingapi.py, benchlingapi/base.py,
benchlingapi/models.py, benchlingapi/api.py) are shallowly embedded below:
pure request/response handling becomes Lean functions, the mutable caches
become explicit state records, and HTTP traffic is abstracted to response
values handed to the functions that consume them.  Deserialization by the
external marshpillow/marshmallow library is treated as the identity on
already-typed records.
-/

namespace Benchling

/-! ## Transport layer (benchlingapi.py, `RequestDecorator` and the
`_get` / `_post` / `_patch` / `_delete` methods) -/

/-- An HTTP response as seen by `RequestDecorator.__call__`: the status code
and the decoded JSON body (the body type is abstract). -/
structure Resp (β : Type) where
  status : Nat
  body : β

/-- Client-side errors.  `httpFailed` models `BenchlingAPIException("HTTP
Response Failed ...")` raised by `RequestDecorator`, carrying the status code
and the label looked up in the `http_codes` table; `authRequired` models the
`requests.ConnectionError` raised by `_update_dictionaries` when the folders
payload has an `error` key; `notFoundInCache` models the
`BenchlingAPIException("No items found ...")` of `_find_cached_items`;
`cannotLocateCreated` models the `BenchlingAPIException("Unable to return
newly created sequence ...")` of `create_sequence`. -/
inductive ApiErr where
  | httpFailed (status : Nat) (label : String)
  | authRequired
  | notFoundInCache (value : String)
  | cannotLocateCreated
  deriving Repr, DecidableEq

/-- The `http_codes` table of `RequestDecorator.__call__`: the human-readable
label for the recognized status codes, and `""` for every other code. -/
def httpLabel (c : Nat) : String :=
  if c = 403 then "FORBIDDEN"
  else if c = 404 then "NOT FOUND"
  else if c = 500 then "INTERNAL SERVER ERROR"
  else if c = 503 then "SERVICE UNAVAILABLE"
  else if c = 504 then "SERVER TIMEOUT"
  else ""

/-- `RequestDecorator(status_codes)` applied to a response: a status in the
allow-list passes the decoded JSON body through, any other status raises
`BenchlingAPIException` carrying the status code and the label. -/
def requestDecorator (codes : List Nat) (r : Resp β) : Except ApiErr β :=
  if r.status ∈ codes then Except.ok r.body
  else Except.error (ApiErr.httpFailed r.status (httpLabel r.status))

/-- `@RequestDecorator(200) def _get` -/
def get_request (r : Resp β) : Except ApiErr β := requestDecorator [200] r

/-- `@RequestDecorator([200, 201, 202]) def _post` -/
def post_request (r : Resp β) : Except ApiErr β := requestDecorator [200, 201, 202] r

/-- `@RequestDecorator([200, 201]) def _patch` -/
def patch_request (r : Resp β) : Except ApiErr β := requestDecorator [200, 201] r

/-- `@RequestDecorator(200) def _delete` -/
def delete_request (r : Resp β) : Except ApiErr β := requestDecorator [200] r

/-- C2: a Transport response whose status is outside the per-operation
allow-list (GET: 200; POST: 200/201/202; PATCH: 200/201; DELETE: 200) raises
an error carrying the status code and the label from the `http_codes` table
(404 yields "NOT FOUND", and the five recognized codes have their labels);
a status inside the allow-list yields the decoded body. -/
theorem transport_allowlist (β : Type) (r : Resp β) :
    (¬ r.status = 200 →
      get_request r = Except.error (ApiErr.httpFailed r.status (httpLabel r.status))) ∧
    (r.status = 200 → get_request r = Except.ok r.body) ∧
    (¬ r.status ∈ [200, 201, 202] →
      post_request r = Except.error (ApiErr.httpFailed r.status (httpLabel r.status))) ∧
    (r.status ∈ [200, 201, 202] → post_request r = Except.ok r.body) ∧
    (¬ r.status ∈ [200, 201] →
      patch_request r = Except.error (ApiErr.httpFailed r.status (httpLabel r.status))) ∧
    (r.status ∈ [200, 201] → patch_request r = Except.ok r.body) ∧
    (¬ r.status = 200 →
      delete_request r = Except.error (ApiErr.httpFailed r.status (httpLabel r.status))) ∧
    (r.status = 200 → delete_request r = Except.ok r.body) ∧
    httpLabel 403 = "FORBIDDEN" ∧ httpLabel 404 = "NOT FOUND" ∧
    httpLabel 500 = "INTERNAL SERVER ERROR" ∧ httpLabel 503 = "SERVICE UNAVAILABLE" ∧
    httpLabel 504 = "SERVER TIMEOUT" := by
  refine ⟨?_, ?_, ?_, ?_, ?_, ?_, ?_, ?_, rfl, rfl, rfl, rfl, rfl⟩ <;>
    intro h <;>
    simp [get_request, post_request, patch_request, delete_request, requestDecorator, h]

/-- Witness for C2 at concrete responses: a 404 on GET raises the error with
status 404 and label "NOT FOUND", and a 200 on GET yields the body. -/
theorem transport_allowlist_witness :
    get_request (Resp.mk 404 "b") = Except.error (ApiErr.httpFailed 404 "NOT FOUND") ∧
    get_request (Resp.mk 200 "b") = Except.ok "b" := by
  constructor
  · have h := (transport_allowlist String (Resp.mk 404 "b")).1 (by decide)
    simpa [httpLabel] using h
  · exact (transport_allowlist String (Resp.mk 200 "b")).2.1 rfl

/-! ## Request payloads and `_clean_dictionary` (benchlingapi.py) -/

/-- A Python value as stored in a request-payload dictionary.  `pyNone` is
Python's `None`; `pyBuiltinType` is the builtin class `type`, which is the
declared default of `patch_folder`'s `type` parameter (the source reads
`type=type`). -/
inductive PyVal where
  | pyNone
  | pyStr (s : String)
  | pyBool (b : Bool)
  | pyList (xs : List String)
  | pyBuiltinType
  deriving Repr, DecidableEq

/-- An optional string argument as it appears in a payload (None when unset). -/
def optStr : Option String → PyVal
  | none => PyVal.pyNone
  | some s => PyVal.pyStr s

/-- An optional bool argument as it appears in a payload. -/
def optBool : Option Bool → PyVal
  | none => PyVal.pyNone
  | some b => PyVal.pyBool b

/-- An optional list argument as it appears in a payload. -/
def optList : Option (List String) → PyVal
  | none => PyVal.pyNone
  | some xs => PyVal.pyList xs

/-- A Python dict, modeled as an insertion-ordered association list whose keys
are unique. -/
abbrev PyDict := List (String × PyVal)

/-- `dic[key]` lookup. -/
def lookupVal (d : PyDict) (k : String) : Option PyVal :=
  (d.find? (fun kv => kv.1 == k)).map Prod.snd

/-- `dic.pop(key)`. -/
def popKey (d : PyDict) (k : String) : PyDict :=
  d.filter (fun kv => !(kv.1 == k))

/-- `_clean_dictionary`: takes a snapshot of the keys, then pops every key
whose current value is None. -/
def clean_dictionary (d : PyDict) : PyDict :=
  (d.map Prod.fst).foldl
    (fun acc k => if lookupVal acc k = some PyVal.pyNone then popKey acc k else acc) d

/-- Payload built by `patch_folder`.  The first three parameters default to
None; the declared default of the `type` parameter is the Python builtin
`type` (source: `def patch_folder(self, id, name=None, description=None,
owner=None, type=type)`), passed here as the last argument. -/
def patch_folder_payload (name description owner : Option String) (t : PyVal) : PyDict :=
  [("name", optStr name), ("description", optStr description),
   ("owner", optStr owner), ("type", t)]

/-- The default value of `patch_folder`'s `type` parameter: the builtin
`type`, not None. -/
def patch_folder_type_default : PyVal := PyVal.pyBuiltinType

/-- Payload built by `patch_sequence` (all optional parameters default to
None). -/
def patch_sequence_payload (name : Option String) (aliases : Option (List String))
    (description bases : Option String) (circular : Option Bool)
    (folder color : Option String) : PyDict :=
  [("name", optStr name), ("aliases", optList aliases),
   ("description", optStr description), ("bases", optStr bases),
   ("circular", optBool circular), ("folder", optStr folder),
   ("color", optStr color)]

/-- Payload built by `create_folder` (`name` is required, `description`
defaults to None, `owner` is fetched from `get_me`, `folder_type` defaults to
"INVENTORY"). -/
def create_folder_payload (name : String) (description : Option String)
    (owner : String) (folder_type : String) : PyDict :=
  [("name", PyVal.pyStr name), ("description", optStr description),
   ("owner", PyVal.pyStr owner), ("type", PyVal.pyStr folder_type)]

/-- Payload built by `create_sequence` (`description`, `annotations`,
`aliases` and `tags` default to None). -/
def create_sequence_payload (name : String) (description : Option String)
    (bases : String) (circular : Bool) (folder : String)
    (annotations aliases tags : Option (List String)) : PyDict :=
  [("name", PyVal.pyStr name), ("description", optStr description),
   ("bases", PyVal.pyStr bases), ("circular", PyVal.pyBool circular),
   ("folder", PyVal.pyStr folder), ("annotations", optList annotations),
   ("aliases", optList aliases), ("tags", optList tags)]

/-- In a dict with unique keys, looking up the key of a member entry returns
that entry's value. -/
theorem lookupVal_of_mem (d : PyDict) (hd : (d.map Prod.fst).Nodup)
    (kv : String × PyVal) (hkv : kv ∈ d) : lookupVal d kv.1 = some kv.2 := by
  induction d with
  | nil => cases hkv
  | cons x rest ih =>
      rcases List.mem_cons.mp hkv with h | h
      · subst h
        simp [lookupVal, List.find?_cons_of_pos]
      · have hx : x.1 ≠ kv.1 := by
          intro he
          have : kv.1 ∈ rest.map Prod.fst := List.mem_map_of_mem Prod.fst h
          rw [← he] at this
          exact (List.nodup_cons.mp hd).1 this
        have := ih (List.nodup_cons.mp hd).2 h
        simpa [lookupVal, List.find?_cons, beq_iff_eq, hx] using this

/-- The key-popping loop of `_clean_dictionary`, run over an arbitrary key
snapshot `ks`, filters out exactly the member entries whose key is in `ks`
and whose value is None. -/
theorem clean_fold (ks : List String) (acc : PyDict) (hacc : (acc.map Prod.fst).Nodup) :
    ks.foldl (fun acc k => if lookupVal acc k = some PyVal.pyNone then popKey acc k else acc) acc
      = acc.filter (fun kv => !(ks.contains kv.1 && kv.2 == PyVal.pyNone)) := by
  induction ks generalizing acc with
  | nil => simp
  | cons k ks ih =>
      rw [List.foldl_cons]
      by_cases h : lookupVal acc k = some PyVal.pyNone
      · have hpop : ((popKey acc k).map Prod.fst).Nodup := by
          exact List.Nodup.sublist (List.Sublist.map Prod.fst (List.filter_sublist acc)) hacc
        rw [if_pos h, ih (popKey acc k) hpop, popKey, List.filter_filter]
        apply List.filter_congr
        intro kv hkv
        by_cases hk : kv.1 = k
        · have : kv.2 = PyVal.pyNone := by
            have := lookupVal_of_mem acc hacc kv hkv
            rw [hk] at this
            rw [this] at h
            exact Option.some.inj h.symm ▸ rfl
          simp [hk, this]
        · simp [hk, Ne.symm hk]
      · rw [if_neg h, ih acc hacc]
        apply List.filter_congr
        intro kv hkv
        by_cases hk : kv.1 = k
        · have hne : kv.2 ≠ PyVal.pyNone := by
            intro he
            apply h
            have := lookupVal_of_mem acc hacc kv hkv
            rw [hk, he] at this
            exact this
          simp [hk, hne]
        · simp [hk, Ne.symm hk]

/-- `_clean_dictionary` on a dict with unique keys removes exactly the
None-valued entries and keeps every other entry unchanged, in order. -/
theorem clean_dictionary_eq_filter (d : PyDict) (hd : (d.map Prod.fst).Nodup) :
    clean_dictionary d = d.filter (fun kv => !(kv.2 == PyVal.pyNone)) := by
  rw [clean_dictionary, clean_fold (d.map Prod.fst) d hd]
  apply List.filter_congr
  intro kv hkv
  have : (d.map Prod.fst).contains kv.1 = true :=
    List.elem_eq_true_of_mem (List.mem_map_of_mem Prod.fst hkv)
  rw [this]
  simp

/-- C10: at the failing input — `patch_folder` with every optional parameter
left unset — the cleaned payload still contains the `type` key, bound to the
Python builtin `type` (the parameter's declared default `type=type` is not
None, so `_clean_dictionary` keeps it); by contrast `create_folder` with
`description` unset omits the None-valued key as the claim describes. -/
theorem patch_folder_unset_type_not_omitted :
    clean_dictionary (patch_folder_payload none none none patch_folder_type_default) =
      [("type", PyVal.pyBuiltinType)] ∧
    patch_folder_type_default ≠ PyVal.pyNone ∧
    clean_dictionary (create_folder_payload "N" none "ent1" "INVENTORY") =
      [("name", PyVal.pyStr "N"), ("owner", PyVal.pyStr "ent1"),
       ("type", PyVal.pyStr "INVENTORY")] := by
  refine ⟨by decide, by decide, by decide⟩

/-! ## Sequence annotations and `_clean_annotations` / `get_sequence`
(benchlingapi.py).  The field `end` of an annotation dict is named `end_`
here because `end` is a Lean keyword. -/

/-- An annotation dict nested in a sequence payload, with the fields listed in
models.py. -/
structure Ann where
  name : String
  start : Nat
  end_ : Nat
  color : String
  strand : Int
  type : String
  description : String
  editURL : String
  length : Nat
  deriving Repr, DecidableEq

/-- A sequence payload as consumed by `_clean_annotations`. -/
structure Seq where
  id : String
  name : String
  bases : String
  annotations : List Ann
  deriving Repr, DecidableEq

/-- `_clean_annotations`: every annotation whose `end` is 0 gets its `end`
set to `len(sequence['bases'])`; the in-place mutation is modeled by mapping
over the annotation list. -/
def clean_annotations (s : Seq) : Seq :=
  { s with annotations :=
      s.annotations.map (fun a => if a.end_ = 0 then { a with end_ := s.bases.length } else a) }

/-- `get_sequence`: GETs `sequences/{id}` and runs `_clean_annotations` on the
result.  The server is abstracted as a partial map from id to the decoded
sequence payload. -/
def get_sequence (server : String → Option Seq) (i : String) : Option Seq :=
  (server i).map clean_annotations

/-- C4: a sequence fetched by `get_sequence` whose bases have length L has
each annotation with `end == 0` normalized to `end == L`; an annotation with
nonzero `end` keeps its `end`; all other annotation fields (and the other
sequence fields) are unchanged in both cases. -/
theorem get_sequence_normalizes_end (server : String → Option Seq) (i : String)
    (s : Seq) (h : server i = some s) :
    ∃ t, get_sequence server i = some t ∧ t.id = s.id ∧ t.name = s.name ∧
      t.bases = s.bases ∧ t.annotations.length = s.annotations.length ∧
      ∀ j : Fin s.annotations.length,
        ∃ hj : j.1 < t.annotations.length,
          (t.annotations.get ⟨j.1, hj⟩).name = (s.annotations.get j).name ∧
          (t.annotations.get ⟨j.1, hj⟩).start = (s.annotations.get j).start ∧
          (t.annotations.get ⟨j.1, hj⟩).color = (s.annotations.get j).color ∧
          (t.annotations.get ⟨j.1, hj⟩).strand = (s.annotations.get j).strand ∧
          (t.annotations.get ⟨j.1, hj⟩).type = (s.annotations.get j).type ∧
          (t.annotations.get ⟨j.1, hj⟩).description = (s.annotations.get j).description ∧
          (t.annotations.get ⟨j.1, hj⟩).editURL = (s.annotations.get j).editURL ∧
          (t.annotations.get ⟨j.1, hj⟩).length = (s.annotations.get j).length ∧
          (t.annotations.get ⟨j.1, hj⟩).end_ =
            (if (s.annotations.get j).end_ = 0 then s.bases.length
             else (s.annotations.get j).end_) := by
  refine ⟨clean_annotations s, by simp [get_sequence, h], rfl, rfl, rfl,
    by simp [clean_annotations], ?_⟩
  intro j
  have hj : j.1 < (clean_annotations s).annotations.length := by
    simp [clean_annotations]
  refine ⟨hj, ?_⟩
  have hget : (clean_annotations s).annotations.get ⟨j.1, hj⟩ =
      (fun a => if a.end_ = 0 then { a with end_ := s.bases.length } else a)
        (s.annotations.get j) := by
    simp [clean_annotations]
  rw [hget]
  by_cases he : (s.annotations.get j).end_ = 0 <;>
    simp only [List.get_eq_getElem] at he ⊢ <;> simp [he]

/-- A concrete sequence with one sentinel annotation (`end == 0`) and one
ordinary annotation (`end == 5`), for the C4 witness. -/
def wseq : Seq :=
  { id := "seq1", name := "X", bases := "ATGC",
    annotations :=
      [{ name := "a0", start := 1, end_ := 0, color := "green", strand := 1,
         type := "misc", description := "d0", editURL := "u0", length := 3 },
       { name := "a5", start := 2, end_ := 5, color := "red", strand := -1,
         type := "gene", description := "d5", editURL := "u5", length := 3 }] }

/-- A concrete one-sequence server for the C4 witness. -/
def wserver : String → Option Seq := fun i => if i = "seq1" then some wseq else none

/-- Witness for C4 at the concrete server: the hypothesis holds and the
normalization property follows by applying the theorem. -/
theorem get_sequence_normalizes_end_witness :
    wserver "seq1" = some wseq ∧
    (∃ t, get_sequence wserver "seq1" = some t ∧ t.id = wseq.id ∧ t.name = wseq.name ∧
      t.bases = wseq.bases ∧ t.annotations.length = wseq.annotations.length ∧
      ∀ j : Fin wseq.annotations.length,
        ∃ hj : j.1 < t.annotations.length,
          (t.annotations.get ⟨j.1, hj⟩).name = (wseq.annotations.get j).name ∧
          (t.annotations.get ⟨j.1, hj⟩).start = (wseq.annotations.get j).start ∧
          (t.annotations.get ⟨j.1, hj⟩).color = (wseq.annotations.get j).color ∧
          (t.annotations.get ⟨j.1, hj⟩).strand = (wseq.annotations.get j).strand ∧
          (t.annotations.get ⟨j.1, hj⟩).type = (wseq.annotations.get j).type ∧
          (t.annotations.get ⟨j.1, hj⟩).description = (wseq.annotations.get j).description ∧
          (t.annotations.get ⟨j.1, hj⟩).editURL = (wseq.annotations.get j).editURL ∧
          (t.annotations.get ⟨j.1, hj⟩).length = (wseq.annotations.get j).length ∧
          (t.annotations.get ⟨j.1, hj⟩).end_ =
            (if (wseq.annotations.get j).end_ = 0 then wseq.bases.length
             else (wseq.annotations.get j).end_)) :=
  ⟨by decide, get_sequence_normalizes_end wserver "seq1" wseq (by decide)⟩

/-! ## Cache-scan queries: `_filter` / `_find_cached_items` / `_find`
(benchlingapi.py).  A single-key query `{query: value}` is modeled by an
accessor `get` selecting the queried field of a cached record. -/

/-- `_filter(item_list, {query: value})` for a single-key, non-regex query. -/
def filter_items (items : List α) (get : α → String) (value : String) : List α :=
  items.filter (fun i => get i == value)

/-- `_find_cached_items`: zero matches raise the "No items found" exception;
otherwise the matches are returned, together with a flag recording whether
the "more items found, returning first" warning was emitted (more than one
match). -/
def find_cached_items (items : List α) (get : α → String) (value : String) :
    Except ApiErr (List α × Bool) :=
  let found := filter_items items get value
  if found.length = 0 then Except.error (ApiErr.notFoundInCache value)
  else Except.ok (found, decide (1 < found.length))

/-- `_find`: takes the first record returned by `_find_cached_items` (the
final `self._get` re-fetch by that record's id is modeled as returning the
record itself).  The empty-list arm is unreachable because
`_find_cached_items` never returns an empty list. -/
def find_item (items : List α) (get : α → String) (value : String) : Except ApiErr α :=
  match find_cached_items items get value with
  | Except.error e => Except.error e
  | Except.ok (found, _) =>
      match found with
      | [] => Except.error (ApiErr.notFoundInCache value)
      | x :: _ => Except.ok x

/-- C8: a cache-scan query matching zero records raises the not-found error;
matching exactly one record returns it with no warning; matching more than
one returns the first match and emits the warning instead of failing. -/
theorem find_cached_query_spec (items : List α) (get : α → String) (v : String) :
    (find_cached_items items get v =
      match items.filter (fun i => get i == v) with
      | [] => Except.error (ApiErr.notFoundInCache v)
      | [x] => Except.ok ([x], false)
      | x :: y :: rest => Except.ok (x :: y :: rest, true)) ∧
    (find_item items get v =
      match items.filter (fun i => get i == v) with
      | [] => Except.error (ApiErr.notFoundInCache v)
      | x :: _ => Except.ok x) := by
  constructor
  · cases h : items.filter (fun i => get i == v) with
    | nil => simp [find_cached_items, filter_items, h]
    | cons x rest =>
        cases rest with
        | nil => simp [find_cached_items, filter_items, h]
        | cons y rest2 =>
            simp [find_cached_items, filter_items, h]
  · cases h : items.filter (fun i => get i == v) with
    | nil => simp [find_item, find_cached_items, filter_items, h]
    | cons x rest => simp [find_item, find_cached_items, filter_items, h]

/-! ## Per-type record caches (base.py `MyBase` and models.py).

`MyBase` declares a class attribute `items = {}`.  `Folder`, `Annotation` and
`Sequence` each declare their own `items = {}`; `Primer` and `Entity` do not,
so both resolve `cls.items` to the single dict object inherited from
`MyBase`.  The state `Caches` therefore holds one dict per `items`-declaring
class, and `itemsOf` maps each record class to the dict its `cls.items`
refers to.  `cls.load` (marshpillow deserialization) is the identity on
typed records. -/

/-- A typed record held in a class cache. -/
structure Rec where
  id : String
  name : String
  deriving Repr, DecidableEq

/-- `cls.items[k] = v` on a dict modeled as a function. -/
def dictInsert (d : String → Option Rec) (k : String) (v : Rec) : String → Option Rec :=
  fun x => if x = k then some v else d x

/-- The record classes of models.py (`Annotation` is abbreviated `ann`). -/
inductive RClass
  | folder
  | sequence
  | ann
  | primer
  | entity
  deriving Repr, DecidableEq

/-- One dict per `items = {}` occurrence: `baseItems` is `MyBase.items`,
shared by `Primer` and `Entity`; the other three classes own their dicts. -/
structure Caches where
  baseItems : String → Option Rec
  folderItems : String → Option Rec
  annItems : String → Option Rec
  seqItems : String → Option Rec

/-- The dict object `cls.items` resolves to. -/
def itemsOf : RClass → Caches → (String → Option Rec)
  | RClass.folder, c => c.folderItems
  | RClass.sequence, c => c.seqItems
  | RClass.ann, c => c.annItems
  | RClass.primer, c => c.baseItems
  | RClass.entity, c => c.baseItems

/-- Writing back the dict object `cls.items` resolves to. -/
def setItemsOf : RClass → Caches → (String → Option Rec) → Caches
  | RClass.folder, c, d => { c with folderItems := d }
  | RClass.sequence, c, d => { c with seqItems := d }
  | RClass.ann, c, d => { c with annItems := d }
  | RClass.primer, c, d => { c with baseItems := d }
  | RClass.entity, c, d => { c with baseItems := d }

/-- `cls.pluralize()` (inflection.pluralize of the lowercased class name). -/
def pluralize : RClass → String
  | RClass.folder => "folders"
  | RClass.sequence => "sequences"
  | RClass.ann => "annotations"
  | RClass.primer => "primers"
  | RClass.entity => "entities"

/-- `MyBase.all`: GETs the pluralized collection endpoint, loads the returned
records, stores each into `cls.items` keyed by its id, and returns the loaded
list.  The decoded response list is passed in directly. -/
def class_all (cls : RClass) (c : Caches) (resp : List Rec) : Caches × List Rec :=
  (setItemsOf cls c (resp.foldl (fun d i => dictInsert d i.id i) (itemsOf cls c)), resp)

/-- `MyBase.find`: GETs `cls.pluralize()/id` and returns the loaded record,
without touching any cache.  The server is a map from request path to the
decoded record. -/
def class_find (cls : RClass) (c : Caches) (server : String → Option Rec) (i : String) :
    Caches × Option Rec :=
  (c, server (pluralize cls ++ "/" ++ i))

/-- Writing then reading the same class's dict. -/
theorem itemsOf_setItemsOf (cls : RClass) (c : Caches) (d : String → Option Rec) :
    itemsOf cls (setItemsOf cls c d) = d := by
  cases cls <;> rfl

/-- Looking up the insertion fold of `MyBase.all`: the last response record
with the looked-up id wins, and ids absent from the response fall through to
the previous dict. -/
theorem foldl_dictInsert_lookup (resp : List Rec) (d : String → Option Rec) (k : String) :
    (resp.foldl (fun d i => dictInsert d i.id i) d) k =
      match resp.reverse.find? (fun i => i.id == k) with
      | some i => some i
      | none => d k := by
  induction resp generalizing d with
  | nil => simp
  | cons i rest ih =>
      rw [List.foldl_cons, ih]
      rw [List.reverse_cons, List.find?_append]
      cases h : rest.reverse.find? (fun j => j.id == k) with
      | some j => simp [h, Option.orElse]
      | none =>
          by_cases hk : k = i.id
          · simp [h, dictInsert, hk, Option.orElse, List.find?]
          · have hbeq : (i.id == k) = false := by
              simp [beq_iff_eq]
              exact fun he => hk he.symm
            simp [h, dictInsert, hk, Option.orElse, List.find?, hbeq]

/-- C1 (amended): `MyBase.all` upserts the response records into the type's
cache keyed by id (the last response record with a given id wins), leaves
every cached record whose id is absent from the response in place, and
returns the response records in server-provided order. -/
theorem class_all_upserts (cls : RClass) (c : Caches) (resp : List Rec) :
    (class_all cls c resp).2 = resp ∧
    ∀ k, itemsOf cls (class_all cls c resp).1 k =
      match resp.reverse.find? (fun i => i.id == k) with
      | some i => some i
      | none => itemsOf cls c k := by
  refine ⟨rfl, fun k => ?_⟩
  rw [class_all, itemsOf_setItemsOf, foldl_dictInsert_lookup]

/-- A sequence cache already holding a record with id "seq_old". -/
def old_seq_cache : Caches :=
  Caches.mk (fun _ => none) (fun _ => none) (fun _ => none)
    (dictInsert (fun _ => none) "seq_old" (Rec.mk "seq_old" "Old"))

/-- C1 counterexample: after `Sequence.all()` returns only a record with id
"seq_new", the previously cached record "seq_old" is still in the cache, so
`all()` did not replace the cache with exactly the response records (the
claim requires "seq_old" to be evicted, i.e. the lookup to be `none`). -/
theorem all_does_not_evict_counterexample :
    itemsOf RClass.sequence
        (class_all RClass.sequence old_seq_cache [Rec.mk "seq_new" "New"]).1 "seq_old"
      = some (Rec.mk "seq_old" "Old") ∧
    ¬ itemsOf RClass.sequence
        (class_all RClass.sequence old_seq_cache [Rec.mk "seq_new" "New"]).1 "seq_old"
      = none := by
  constructor <;> decide

/-- The all-empty cache state. -/
def empty_caches : Caches :=
  Caches.mk (fun _ => none) (fun _ => none) (fun _ => none) (fun _ => none)

/-- C6 failing input: `Primer.all()` over a response containing the record
"prm1" inserts that record into the dict that `Entity.items` resolves to
(both classes inherit `MyBase.items` because neither declares its own
`items = {}` in models.py), so a type-level `all()` on one type modifies
another type's cache. -/
theorem primer_all_modifies_entity_cache :
    itemsOf RClass.entity empty_caches "prm1" = none ∧
    itemsOf RClass.entity (class_all RClass.primer empty_caches [Rec.mk "prm1" "P1"]).1 "prm1"
      = some (Rec.mk "prm1" "P1") := by
  constructor <;> decide

/-- C9: `MyBase.find` issues a GET for the single record at
`pluralize/{id}`, returns the decoded record, and leaves every type's cache
mapping exactly as it was (no entry added, removed, or replaced). -/
theorem class_find_preserves_caches (cls : RClass) (c : Caches)
    (server : String → Option Rec) (i : String) :
    (class_find cls c server i).1 = c ∧
    (∀ cls2 k, itemsOf cls2 (class_find cls c server i).1 k = itemsOf cls2 c k) ∧
    (class_find cls c server i).2 = server (pluralize cls ++ "/" ++ i) :=
  ⟨rfl, fun _ _ => rfl, rfl⟩

/-! ## Relationship resolver: `_clear`, `_updatelistsfromdictionaries`,
`_update_dictionaries` (benchlingapi.py).

Folder and sequence payloads are structures.  The name-keyed dicts
`seq_dict` / `folder_dict` are total functions defaulting to `[]`, matching
the `if name not in dict: dict[name] = []` idiom followed by `append`.  The
in-place mutation `s['folder'] = f['id']` of a sequence dict embedded in a
folder is modeled functionally: `set_folder` on the occurrence, `upd_folder`
for the folder object whose embedded list ends up mutated. -/

/-- A sequence dict embedded in a folders-list payload (`folder` is the key
written by the resolver; a server-provided value is overwritten). -/
structure SeqR where
  id : String
  name : String
  folder : String
  deriving Repr, DecidableEq

/-- A folder dict from the `GET folders` payload. -/
structure Folder where
  id : String
  name : String
  sequences : List SeqR
  deriving Repr, DecidableEq

/-- The cache fields of the monolithic `BenchlingAPI` object. -/
structure ApiState where
  folders : List Folder
  sequences : List SeqR
  seq_dict : String → List SeqR
  folder_dict : String → List Folder

/-- `_clear`: empties all four cache fields. -/
def clear_state : ApiState := ApiState.mk [] [] (fun _ => []) (fun _ => [])

/-- `if key not in dict: dict[key] = []` followed by `dict[key].append(x)`. -/
def dict_append (d : String → List α) (k : String) (x : α) : String → List α :=
  fun n => if n = k then d n ++ [x] else d n

/-- `s['folder'] = f['id']` on one sequence occurrence. -/
def set_folder (fid : String) (s : SeqR) : SeqR := { s with folder := fid }

/-- A folder as it stands after the loop body ran: every embedded sequence
dict carries `folder = f['id']`. -/
def upd_folder (f : Folder) : Folder :=
  { f with sequences := f.sequences.map (set_folder f.id) }

@[simp]
theorem set_folder_name (fid : String) (s : SeqR) : (set_folder fid s).name = s.name := rfl

@[simp]
theorem set_folder_folder (fid : String) (s : SeqR) : (set_folder fid s).folder = fid := rfl

@[simp]
theorem upd_folder_name (f : Folder) : (upd_folder f).name = f.name := rfl

@[simp]
theorem upd_folder_id (f : Folder) : (upd_folder f).id = f.id := rfl

/-- The body of the inner `for s in seqs` loop of
`_updatelistsfromdictionaries`: sets the sequence's `folder` key, appends it
to `self.sequences` unless an equal dict is already there, and appends it to
`seq_dict[name]` unconditionally. -/
def process_seq (fid : String) (st : ApiState) (s : SeqR) : ApiState :=
  let s2 := set_folder fid s
  { st with
    sequences := if st.sequences.contains s2 then st.sequences else st.sequences ++ [s2],
    seq_dict := dict_append st.seq_dict s2.name s2 }

/-- The body of the outer `for f in self.folders` loop: appends the folder to
`folder_dict[name]` (the appended dict object is the one the inner loop then
mutates, hence `upd_folder f`), then runs the inner loop. -/
def process_folder (st : ApiState) (f : Folder) : ApiState :=
  f.sequences.foldl (process_seq f.id)
    { st with folder_dict := dict_append st.folder_dict f.name (upd_folder f) }

/-- All sequence occurrences of a folder batch, each with its `folder` key
set to the id of the folder embedding it, in iteration order. -/
def occs (folders : List Folder) : List SeqR :=
  folders.flatMap (fun f => f.sequences.map (set_folder f.id))

@[simp]
theorem occs_nil : occs [] = [] := rfl

@[simp]
theorem occs_cons (f : Folder) (fs : List Folder) :
    occs (f :: fs) = f.sequences.map (set_folder f.id) ++ occs fs := by
  simp [occs]

/-- `_updatelistsfromdictionaries`, run right after `self.folders` was set
from the response: the final state (the `folders` field reflects the
in-place mutation of the embedded sequence dicts). -/
def updatelistsfromdictionaries (folders : List Folder) : ApiState :=
  folders.foldl process_folder
    (ApiState.mk (folders.map upd_folder) [] (fun _ => []) (fun _ => []))

/-- The decoded body of the `GET folders` call: either it contains an
`error` key, or it is the folders list. -/
structure FoldersResp where
  hasError : Bool
  folders : List Folder

/-- `_update_dictionaries`: `_clear`, GET `folders`, raise the
authentication error if the body has an `error` key, otherwise set
`self.folders` and run `_updatelistsfromdictionaries`.  The second component
records the raised error, if any; on an error the object is left in the
cleared state. -/
def update_dictionaries (_old : ApiState) (r : FoldersResp) : ApiState × Option ApiErr :=
  if r.hasError then (clear_state, some ApiErr.authRequired)
  else (updatelistsfromdictionaries r.folders, none)

/-- C3: a folders-list response body containing an `error` key makes the
full-cache refresh raise the authentication error, and no cache field is
populated from that response (the state is the cleared one), whatever the
previous state was. -/
theorem update_dictionaries_auth_error (old : ApiState) (r : FoldersResp)
    (h : r.hasError = true) :
    update_dictionaries old r = (clear_state, some ApiErr.authRequired) ∧
    (update_dictionaries old r).1.folders = [] ∧
    (update_dictionaries old r).1.sequences = [] ∧
    (∀ n, (update_dictionaries old r).1.seq_dict n = []) ∧
    (∀ n, (update_dictionaries old r).1.folder_dict n = []) := by
  refine ⟨by simp [update_dictionaries, h], ?_, ?_, ?_, ?_⟩ <;>
    simp [update_dictionaries, h, clear_state]

/-- Witness for C3: a concrete error response raises the authentication
error and leaves the caches empty. -/
theorem update_dictionaries_auth_error_witness :
    (FoldersResp.mk true []).hasError = true ∧
    (update_dictionaries clear_state (FoldersResp.mk true []) =
      (clear_state, some ApiErr.authRequired) ∧
    (update_dictionaries clear_state (FoldersResp.mk true [])).1.folders = [] ∧
    (update_dictionaries clear_state (FoldersResp.mk true [])).1.sequences = [] ∧
    (∀ n, (update_dictionaries clear_state (FoldersResp.mk true [])).1.seq_dict n = []) ∧
    (∀ n, (update_dictionaries clear_state (FoldersResp.mk true [])).1.folder_dict n = [])) :=
  ⟨rfl, update_dictionaries_auth_error clear_state (FoldersResp.mk true []) rfl⟩

/-- The inner loop over a folder's sequences, starting from any state whose
flat list stays duplicate-free: appends the occurrences in order and extends
`seq_dict` pointwise by the name-filtered occurrences. -/
theorem process_seq_foldl (fid : String) (ss : List SeqR) (st : ApiState)
    (h : (st.sequences ++ ss.map (set_folder fid)).Nodup) :
    ss.foldl (process_seq fid) st =
      ApiState.mk st.folders (st.sequences ++ ss.map (set_folder fid))
        (fun n => st.seq_dict n ++ (ss.map (set_folder fid)).filter (fun s => s.name == n))
        st.folder_dict := by
  induction ss generalizing st with
  | nil =>
      cases st
      simp
  | cons s rest ih =>
      have hmem : set_folder fid s ∉ st.sequences := by
        have hd := (List.nodup_append.mp (by simpa using h)).2.2
        intro hin
        exact hd hin (List.mem_cons_self _ _)
      have hstep : process_seq fid st s =
          { st with sequences := st.sequences ++ [set_folder fid s],
                    seq_dict := dict_append st.seq_dict s.name (set_folder fid s) } := by
        simp [process_seq, hmem]
      have h2 : ((st.sequences ++ [set_folder fid s]) ++ rest.map (set_folder fid)).Nodup := by
        rw [← List.append_cons]
        simpa using h
      rw [List.foldl_cons, hstep, ih _ h2]
      congr 1
      · rw [List.map_cons, ← List.append_cons]
      · funext n
        by_cases hn : n = s.name
        · subst hn
          simp [dict_append, List.filter_cons, List.append_assoc]
        · have hn2 : ¬ s.name = n := fun he => hn he.symm
          simp [dict_append, hn, hn2, List.filter_cons]

/-- The outer loop over the folder batch: appends all occurrences in order,
extends `seq_dict` by the name-filtered occurrences and `folder_dict` by the
name-filtered (mutated) folders. -/
theorem process_folder_foldl (fs : List Folder) (st : ApiState)
    (h : (st.sequences ++ occs fs).Nodup) :
    fs.foldl process_folder st =
      ApiState.mk st.folders (st.sequences ++ occs fs)
        (fun n => st.seq_dict n ++ (occs fs).filter (fun s => s.name == n))
        (fun n => st.folder_dict n ++ (fs.filter (fun f => f.name == n)).map upd_folder) := by
  induction fs generalizing st with
  | nil =>
      cases st
      simp
  | cons f rest ih =>
      have hA : ((st.sequences ++ f.sequences.map (set_folder f.id)) ++ occs rest).Nodup := by
        rw [List.append_assoc]
        simpa using h
      have hA1 : (st.sequences ++ f.sequences.map (set_folder f.id)).Nodup :=
        List.Nodup.sublist (List.sublist_append_left _ _) hA
      have hstep : process_folder st f =
          ApiState.mk st.folders (st.sequences ++ f.sequences.map (set_folder f.id))
            (fun n => st.seq_dict n ++
              (f.sequences.map (set_folder f.id)).filter (fun s => s.name == n))
            (dict_append st.folder_dict f.name (upd_folder f)) := by
        rw [process_folder, process_seq_foldl f.id f.sequences
          { st with folder_dict := dict_append st.folder_dict f.name (upd_folder f) } hA1]
      rw [List.foldl_cons, hstep, ih _ hA]
      congr 1
      · rw [occs_cons, ← List.append_assoc]
      · funext n
        simp [occs_cons, List.filter_append, List.append_assoc]
      · funext n
        by_cases hn : n = f.name
        · subst hn
          simp [dict_append, List.filter_cons, List.append_assoc]
        · have hn2 : ¬ f.name = n := fun he => hn he.symm
          simp [dict_append, hn, hn2, List.filter_cons]

/-- C5: after a full refresh over a batch of folders with distinct ids whose
flat occurrence list is duplicate-free, every sequence in the flat list has
`folder` equal to the id of exactly one folder of the batch — the one that
embeds it — `folder_dict` maps each name to the batch folders bearing that
name, and `seq_dict` maps each name to the sequences bearing that name. -/
theorem full_refresh_resolves (folders : List Folder)
    (hid : (folders.map Folder.id).Nodup)
    (hocc : (occs folders).Nodup) :
    ((updatelistsfromdictionaries folders).sequences = occs folders) ∧
    (∀ s ∈ (updatelistsfromdictionaries folders).sequences,
      ∃ f, f ∈ folders ∧ s.folder = f.id ∧ (∃ s0 ∈ f.sequences, s = set_folder f.id s0) ∧
        ∀ g ∈ folders, s.folder = g.id → g = f) ∧
    (∀ n, (updatelistsfromdictionaries folders).folder_dict n =
      (folders.filter (fun f => f.name == n)).map upd_folder) ∧
    (∀ n, (updatelistsfromdictionaries folders).seq_dict n =
      (occs folders).filter (fun s => s.name == n)) := by
  have hfold := process_folder_foldl folders
    (ApiState.mk (folders.map upd_folder) [] (fun _ => []) (fun _ => []))
    (by simpa using hocc)
  rw [updatelistsfromdictionaries, hfold]
  refine ⟨by simp, ?_, by intro n; simp, by intro n; simp⟩
  intro s hs
  simp only [List.nil_append] at hs
  obtain ⟨f, hf, hsf⟩ := List.mem_flatMap.mp hs
  obtain ⟨s0, hs0, rfl⟩ := List.mem_map.mp hsf
  refine ⟨f, hf, rfl, ⟨s0, hs0, rfl⟩, ?_⟩
  intro g hg he
  exact List.inj_on_of_nodup_map hid hg hf (by simpa using he.symm)

/-- A concrete two-folder batch (shared folder name "A", shared sequence
name "X") for the C5 witness. -/
def wfolders : List Folder :=
  [Folder.mk "fld1" "A" [SeqR.mk "seq1" "X" "", SeqR.mk "seq2" "X" ""],
   Folder.mk "fld2" "A" [SeqR.mk "seq3" "Z" ""]]

/-- Witness for C5 at the concrete batch: both hypotheses hold and the
resolver property follows by applying the theorem. -/
theorem full_refresh_resolves_witness :
    (wfolders.map Folder.id).Nodup ∧ (occs wfolders).Nodup ∧
    (((updatelistsfromdictionaries wfolders).sequences = occs wfolders) ∧
    (∀ s ∈ (updatelistsfromdictionaries wfolders).sequences,
      ∃ f, f ∈ wfolders ∧ s.folder = f.id ∧ (∃ s0 ∈ f.sequences, s = set_folder f.id s0) ∧
        ∀ g ∈ wfolders, s.folder = g.id → g = f) ∧
    (∀ n, (updatelistsfromdictionaries wfolders).folder_dict n =
      (wfolders.filter (fun f => f.name == n)).map upd_folder) ∧
    (∀ n, (updatelistsfromdictionaries wfolders).seq_dict n =
      (occs wfolders).filter (fun s => s.name == n))) :=
  ⟨by decide, by decide, full_refresh_resolves wfolders (by decide) (by decide)⟩

/-! ## `create_sequence` with overwrite (benchlingapi.py).

One folder F is in play; the server state is F's sequence listing (each
entry a record with an id and a name, reusing `Rec`).  `delete_sequence`
removes the sequence with the given id from the listing; `_post` on
`sequences/` appends a sequence with the posted name under a fresh
server-assigned id; the two `get_folder` calls read the current listing, and
the final `get_sequence` returns the located record. -/

/-- `self.delete_sequence(id)` as reflected in folder F's listing. -/
def delete_sequence (st : List Rec) (i : String) : List Rec :=
  st.filter (fun s => !(s.id == i))

/-- `self._post('sequences/', payload)`: the server appends the posted
sequence under the server-assigned id `newId`. -/
def post_sequence (st : List Rec) (newId nm : String) : List Rec :=
  st ++ [Rec.mk newId nm]

/-- The first loop of `create_sequence`: over a snapshot of the folder
listing, delete every sequence whose name equals the posted name when
`overwrite` is set, collecting the deleted ids (`prev_seq_ids`, in
iteration order). -/
def overwrite_pass (st : List Rec) (nm : String) (ow : Bool) : List Rec × List String :=
  st.foldl
    (fun acc s =>
      if ow && (s.name == nm) then (delete_sequence acc.1 s.id, acc.2 ++ [s.id]) else acc)
    (st, [])

/-- `create_sequence(name, ..., overwrite)`: overwrite pass, then post, then
return the first sequence of the fresh listing whose name matches and whose
id is not in `prev_seq_ids`; if there is none, raise the "Unable to return
newly created sequence" exception. -/
def create_sequence (st : List Rec) (nm : String) (ow : Bool) (newId : String) :
    List Rec × Except ApiErr Rec :=
  let p := overwrite_pass st nm ow
  let st2 := post_sequence p.1 newId nm
  match st2.find? (fun s => s.name == nm && !(p.2.contains s.id)) with
  | some s => (st2, Except.ok s)
  | none => (st2, Except.error ApiErr.cannotLocateCreated)

/-- The overwrite pass with `overwrite=True`: the deleted ids are the ids of
the name-matching sequences of the snapshot, and the surviving listing is
the original minus every sequence bearing a deleted id. -/
theorem overwrite_pass_true (st : List Rec) (nm : String) :
    overwrite_pass st nm true =
      (st.filter (fun s => !((st.filter (fun t => t.name == nm)).map Rec.id).contains s.id),
       (st.filter (fun t => t.name == nm)).map Rec.id) := by
  have key : ∀ (ss cur : List Rec) (acc : List String),
      ss.foldl
        (fun acc s =>
          if true && (s.name == nm) then (delete_sequence acc.1 s.id, acc.2 ++ [s.id]) else acc)
        (cur, acc) =
      (cur.filter (fun s => !((ss.filter (fun t => t.name == nm)).map Rec.id).contains s.id),
       acc ++ (ss.filter (fun t => t.name == nm)).map Rec.id) := by
    intro ss
    induction ss with
    | nil =>
        intro cur acc
        simp
    | cons s rest ih =>
        intro cur acc
        rw [List.foldl_cons]
        cases hsb : (s.name == nm) with
        | true =>
            rw [if_pos (show (true && true) = true by rfl)]
            rw [ih]
            simp only [List.filter_cons, hsb, if_true, List.map_cons, Prod.mk.injEq]
            constructor
            · rw [delete_sequence, List.filter_filter]
              apply List.filter_congr
              intro x _
              simp [List.contains_cons, Bool.not_or, Bool.and_comm]
            · rw [List.append_assoc]
              rfl
        | false =>
            rw [if_neg (show ¬ (true && false) = true by decide)]
            rw [ih]
            simp [List.filter_cons, hsb]
  rw [overwrite_pass]
  simpa using key st st []

/-- Under unique listing ids, the overwrite pass with `overwrite=True`
deletes exactly the name-matching sequences. -/
theorem overwrite_pass_true_nodup (st : List Rec) (nm : String)
    (hid : (st.map Rec.id).Nodup) :
    overwrite_pass st nm true =
      (st.filter (fun s => !(s.name == nm)), (st.filter (fun t => t.name == nm)).map Rec.id) := by
  rw [overwrite_pass_true]
  congr 1
  apply List.filter_congr
  intro s hs
  cases hnm : (s.name == nm) with
  | true =>
      have hmemf : s ∈ st.filter (fun t => t.name == nm) := by
        rw [List.mem_filter]
        exact ⟨hs, hnm⟩
      have : ((st.filter (fun t => t.name == nm)).map Rec.id).contains s.id = true :=
        List.elem_eq_true_of_mem (List.mem_map_of_mem Rec.id hmemf)
      rw [this]
  | false =>
      have : ((st.filter (fun t => t.name == nm)).map Rec.id).contains s.id = false := by
        cases hc : ((st.filter (fun t => t.name == nm)).map Rec.id).contains s.id with
        | false => rfl
        | true =>
            obtain ⟨t, htf, htid⟩ := List.mem_map.mp (List.mem_of_elem_eq_true hc)
            obtain ⟨htmem, htnm⟩ := List.mem_filter.mp htf
            have : t = s := List.inj_on_of_nodup_map hid htmem hs htid
            rw [this] at htnm
            rw [htnm] at hnm
            cases hnm
      rw [this]

/-- C7: with `overwrite=True` and unique listing ids, `create_sequence`
deletes every sequence named Y from folder F before posting (`prev_seq_ids`
collects exactly their ids and the state passed to the post contains no
sequence named Y); when the server-assigned id is fresh, the call returns
the one new sequence, named Y, with an id different from every deleted id,
and the final listing contains exactly one sequence named Y; when the
located-sequence search fails (the posted id collides with a deleted id),
the "unable to return newly created sequence" error is raised instead. -/
theorem create_sequence_overwrite (st : List Rec) (nm newId : String)
    (hid : (st.map Rec.id).Nodup)
    (hfresh : ((st.filter (fun t => t.name == nm)).map Rec.id).contains newId = false) :
    (overwrite_pass st nm true).2 = (st.filter (fun t => t.name == nm)).map Rec.id ∧
    (∀ s ∈ (overwrite_pass st nm true).1, (s.name == nm) = false) ∧
    (create_sequence st nm true newId).2 = Except.ok (Rec.mk newId nm) ∧
    ((Rec.mk newId nm).name = nm ∧
      ∀ d ∈ (overwrite_pass st nm true).2, (Rec.mk newId nm).id ≠ d) ∧
    ((create_sequence st nm true newId).1.filter (fun s => s.name == nm)
      = [Rec.mk newId nm]) ∧
    (∀ nid, ((st.filter (fun t => t.name == nm)).map Rec.id).contains nid = true →
      (create_sequence st nm true nid).2 = Except.error ApiErr.cannotLocateCreated) := by
  have hop := overwrite_pass_true_nodup st nm hid
  have hop1 : (overwrite_pass st nm true).1 = st.filter (fun s => !(s.name == nm)) := by
    rw [hop]
  have hop2 : (overwrite_pass st nm true).2 =
      (st.filter (fun t => t.name == nm)).map Rec.id := by
    rw [hop]
  have h1 : ∀ (prev : List String),
      (st.filter (fun s => !(s.name == nm))).find?
        (fun s => s.name == nm && !(prev.contains s.id)) = none := by
    intro prev
    rw [List.find?_eq_none]
    intro x hx
    have hxn : (x.name == nm) = false := by
      have := (List.mem_filter.mp hx).2
      simpa using this
    simp [hxn]
  refine ⟨hop2, ?_, ?_, ⟨rfl, ?_⟩, ?_, ?_⟩
  · rw [hop1]
    intro s hs
    have := (List.mem_filter.mp hs).2
    simpa using this
  · simp only [create_sequence, post_sequence, hop1, hop2]
    rw [List.find?_append, h1]
    have hmemfresh : newId ∉ (st.filter (fun t => t.name == nm)).map Rec.id := by
      simpa using hfresh
    simp [List.find?_cons, hmemfresh]
  · rw [hop2]
    intro d hd
    intro he
    have hc : ((st.filter (fun t => t.name == nm)).map Rec.id).contains d = true :=
      List.elem_eq_true_of_mem hd
    rw [← he] at hc
    rw [hfresh] at hc
    cases hc
  · have hmemfresh : newId ∉ (st.filter (fun t => t.name == nm)).map Rec.id := by
      simpa using hfresh
    simp only [create_sequence, post_sequence, hop1, hop2]
    rw [List.find?_append, h1]
    simp [List.find?_cons, hmemfresh, List.filter_append, List.filter_filter]
  · intro nid hnid
    have hmemnid : nid ∈ (st.filter (fun t => t.name == nm)).map Rec.id := by
      simpa using hnid
    simp only [create_sequence, post_sequence, hop1, hop2]
    rw [List.find?_append, h1]
    simp [List.find?_cons, hmemnid]

/-- A concrete folder listing (one sequence named "Y", one named "Z") for
the C7 witness. -/
def wlisting : List Rec := [Rec.mk "seq1" "Y", Rec.mk "seq2" "Z"]

/-- Witness for C7 at the concrete listing: both hypotheses hold and the
overwrite behavior follows by applying the theorem. -/
theorem create_sequence_overwrite_witness :
    (wlisting.map Rec.id).Nodup ∧
    ((wlisting.filter (fun t => t.name == "Y")).map Rec.id).contains "seq9" = false ∧
    ((overwrite_pass wlisting "Y" true).2 =
        (wlisting.filter (fun t => t.name == "Y")).map Rec.id ∧
      (∀ s ∈ (overwrite_pass wlisting "Y" true).1, (s.name == "Y") = false) ∧
      (create_sequence wlisting "Y" true "seq9").2 = Except.ok (Rec.mk "seq9" "Y") ∧
      ((Rec.mk "seq9" "Y").name = "Y" ∧
        ∀ d ∈ (overwrite_pass wlisting "Y" true).2, (Rec.mk "seq9" "Y").id ≠ d) ∧
      ((create_sequence wlisting "Y" true "seq9").1.filter (fun s => s.name == "Y")
        = [Rec.mk "seq9" "Y"]) ∧
      (∀ nid, ((wlisting.filter (fun t => t.name == "Y")).map Rec.id).contains nid = true →
        (create_sequence wlisting "Y" true nid).2
          = Except.error ApiErr.cannotLocateCreated)) :=
  ⟨by decide, by decide, create_sequence_overwrite wlisting "Y" "seq9" (by decide) (by decide)⟩

end Benchling
